import Mathlib

/-!
Verification development for the tool-invocation protocol layer of the
Roo-Code agent runtime: the native tool-call parser
(NativeToolCallParser.parseToolCall), the abstract dispatch contract
(BaseTool.handle) and representative concrete tools (ListFilesTool,
AttemptCompletionTool, NewTaskTool).

The embedding is shallow: JavaScript runtime values decoded from JSON are
modelled by the inductive type Json (numbers as integers; every property
under scrutiny involves integral values only), JSON.parse is modelled by an
already-decoded argument of type Option Json (none models a decode failure
that JSON.parse would raise and the parser catches), and exceptions are
modelled by Option / Except results.  Stateful callback invocations inside
the dispatcher are modelled by an explicit outcome record.
-/

namespace RooCode

/-- A JSON value as produced by JSON.parse.  Numbers are modelled as
integers: no claim under verification involves non-integral numbers. -/
inductive Json where
  | null
  | bool (b : Bool)
  | num (n : Int)
  | str (s : String)
  | arr (elems : List Json)
  | obj (fields : List (String × Json))

/-- JavaScript property access (args.key) on a decoded JSON value: none
models the value undefined.  Objects decoded from JSON.parse have distinct
keys, so first-match lookup agrees with the JavaScript object. -/
def Json.getField : Json → String → Option Json
  | .obj fields, key => (fields.find? (fun p => p.1 = key)).map (fun p => p.2)
  | _, _ => none

/-- JavaScript truthiness of a decoded JSON value. -/
def Json.truthy : Json → Bool
  | .null => false
  | .bool b => b
  | .num n => n != 0
  | .str s => s ≠ ""
  | .arr _ => true
  | .obj _ => true

/-- Truthiness of a possibly-undefined value (undefined is falsy). -/
def truthyOpt : Option Json → Bool
  | none => false
  | some v => v.truthy

/-- Whether the value is a JavaScript array (Array.isArray). -/
def Json.isArr : Json → Bool
  | .arr _ => true
  | _ => false

/-- Escape a character for JSON.stringify output (backslash and quote; the
control-character escapes are immaterial to every claim). -/
def jsonEscapeChar (c : Char) : String :=
  if c = '\\' then "\\\\" else if c = '\"' then "\\\"" else String.singleton c

/-- Escape a string for JSON.stringify output. -/
def jsonEscape (s : String) : String :=
  String.join (s.data.map jsonEscapeChar)

mutual

/-- JSON.stringify on a decoded JSON value. -/
def Json.stringify : Json → String
  | .null => "null"
  | .bool b => if b then "true" else "false"
  | .num n => toString n
  | .str s => "\"" ++ jsonEscape s ++ "\""
  | .arr xs => "[" ++ stringifyElems xs ++ "]"
  | .obj fs => "\x7b" ++ stringifyFields fs ++ "\x7d"

/-- Comma-joined JSON.stringify of array elements. -/
def stringifyElems : List Json → String
  | [] => ""
  | [x] => Json.stringify x
  | x :: y :: rest => Json.stringify x ++ "," ++ stringifyElems (y :: rest)

/-- Comma-joined JSON.stringify of object fields. -/
def stringifyFields : List (String × Json) → String
  | [] => ""
  | [(k, v)] => "\"" ++ jsonEscape k ++ "\":" ++ Json.stringify v
  | (k, v) :: f :: rest =>
      "\"" ++ jsonEscape k ++ "\":" ++ Json.stringify v ++ "," ++ stringifyFields (f :: rest)

end

/-- Object.entries on a decoded JSON value.  none models the TypeError that
Object.entries(null) raises (caught by the parser).  Primitives yield no
entries except strings, which enumerate their characters by index, exactly
as in JavaScript. -/
def jsEntries : Json → Option (List (String × Json))
  | .null => none
  | .bool _ => some []
  | .num _ => some []
  | .str s => some (s.data.enum.map (fun p => (toString p.1, Json.str (String.singleton p.2))))
  | .arr xs => some (xs.enum.map (fun p => (toString p.1, p.2)))
  | .obj fields => some fields

mutual

/-- String(x) conversion as used by parseInt(String(line), 10). -/
def Json.jsToString : Json → String
  | .null => "null"
  | .bool b => if b then "true" else "false"
  | .num n => toString n
  | .str s => s
  | .arr xs => jsToStringElems xs
  | .obj _ => "[object Object]"

/-- Array.prototype.toString: comma join, where a null element renders as
the empty string. -/
def jsToStringElems : List Json → String
  | [] => ""
  | [.null] => ""
  | [x] => Json.jsToString x
  | .null :: y :: rest => "," ++ jsToStringElems (y :: rest)
  | x :: y :: rest => Json.jsToString x ++ "," ++ jsToStringElems (y :: rest)

end

/-- Leading decimal digits of a character list, as consumed by parseInt. -/
def digitsToNat : List Char → Option Nat
  | [] => none
  | ds => some (ds.foldl (fun acc c => acc * 10 + (c.toNat - 48)) 0)

/-- parseInt(s, 10): trim, optional sign, longest digit prefix; none models
NaN (no leading digit). -/
def jsParseInt (s : String) : Option Int :=
  match s.trim.data with
  | '-' :: rest => (digitsToNat (rest.takeWhile Char.isDigit)).map (fun n => -(n : Int))
  | '+' :: rest => (digitsToNat (rest.takeWhile Char.isDigit)).map (fun n => (n : Int))
  | cs => (digitsToNat (cs.takeWhile Char.isDigit)).map (fun n => (n : Int))

/-- Modelled from the spec: the closed Tool Name enumeration (toolNames from
the types package, which is not part of the sources under verification).
Members are the tool names the sources reference. -/
def toolNames : List String :=
  ["read_file", "attempt_completion", "execute_command", "insert_content",
   "apply_diff", "ask_followup_question", "browser_action", "codebase_search",
   "fetch_instructions", "list_files", "new_task"]

/-- Modelled from the spec: the closed Parameter Name enumeration
(toolParamNames from the shared tools module, which is not part of the
sources under verification).  Members are the parameter names the sources
reference. -/
def toolParamNames : List String :=
  ["path", "recursive", "result", "command", "cwd", "line", "content",
   "diff", "question", "follow_up", "action", "url", "coordinate", "size",
   "text", "query", "task", "mode", "message", "todos", "files"]

/-- First-match lookup in a synthesized legacy parameter map. -/
def getParam (key : String) : List (String × String) → Option String
  | [] => none
  | (k, v) :: rest => if k = key then some v else getParam key rest

/-- The typed native argument values the parser constructs, one constructor
per case of the switch in parseToolCall.  For read_file the entries field
holds the JavaScript value assigned to nativeArgs: either the decoded files
array passed through unchanged, or the synthesized single-entry list.  For
insert_content, none in the line field models NaN from parseInt. -/
inductive NativeToolArgs where
  | readFile (entries : Json)
  | attemptCompletion (result : Json)
  | executeCommand (command : Json) (cwd : Option Json)
  | insertContent (path : Json) (line : Option Int) (content : Json)
  | applyDiff (path : Json) (diff : Json)
  | askFollowupQuestion (question : Json) (followUp : Json)
  | browserAction (action : Json) (url : Option Json) (coordinate : Option Json)
      (size : Option Json) (text : Option Json)
  | codebaseSearch (query : Json) (path : Option Json)
  | fetchInstructions (task : Json)

/-- The unified Tool Invocation record (ToolUse), generic in the native
argument type so that the parser (which produces NativeToolArgs) and the
dispatcher (which is generic over the per-tool typed parameters) share it.
The isStreaming-style boolean field of the source, named after its role, is
isPartial here. -/
structure ToolUse (α : Type) where
  name : String
  params : List (String × String)
  isPartial : Bool
  nativeArgs : Option α

/-- Legacy string value of an argument: pass a string through, otherwise
JSON.stringify it. -/
def legacyStringValue : Json → String
  | .str s => s
  | v => v.stringify

/-- Legacy parameter synthesis loop of parseToolCall: for read_file the
files key is skipped outright; keys outside the Parameter Name set are
dropped with a warning; recognized keys are stringified. -/
def buildParams (toolName : String) : List (String × Json) → List (String × String)
  | [] => []
  | (key, value) :: rest =>
    if toolName = "read_file" ∧ key = "files" then buildParams toolName rest
    else if key ∈ toolParamNames then
      (key, legacyStringValue value) :: buildParams toolName rest
    else buildParams toolName rest

/-- The line field coercion of insert_content: a native number passes
through, anything else goes through parseInt(String(line), 10). -/
def coerceLine : Json → Option Int
  | .num n => some n
  | v => jsParseInt v.jsToString

/-- The switch of parseToolCall that builds typed nativeArgs per tool name.
Tools outside the fixed table get none, forcing the legacy path. -/
def buildNativeArgs (name : String) (args : Json) : Option NativeToolArgs :=
  if name = "read_file" then
    match args.getField "files" with
    | some (.arr xs) => some (.readFile (.arr xs))
    | _ =>
      match args.getField "path" with
      | some p =>
          if p.truthy then
            some (.readFile (.arr [.obj [("path", p), ("lineRanges", .arr [])]]))
          else none
      | none => none
  else if name = "attempt_completion" then
    match args.getField "result" with
    | some r => if r.truthy then some (.attemptCompletion r) else none
    | none => none
  else if name = "execute_command" then
    match args.getField "command" with
    | some c => if c.truthy then some (.executeCommand c (args.getField "cwd")) else none
    | none => none
  else if name = "insert_content" then
    match args.getField "path", args.getField "line", args.getField "content" with
    | some p, some l, some c => some (.insertContent p (coerceLine l) c)
    | _, _, _ => none
  else if name = "apply_diff" then
    match args.getField "path", args.getField "diff" with
    | some p, some d => some (.applyDiff p d)
    | _, _ => none
  else if name = "ask_followup_question" then
    match args.getField "question", args.getField "follow_up" with
    | some q, some f => some (.askFollowupQuestion q f)
    | _, _ => none
  else if name = "browser_action" then
    match args.getField "action" with
    | some a =>
        some (.browserAction a (args.getField "url") (args.getField "coordinate")
          (args.getField "size") (args.getField "text"))
    | none => none
  else if name = "codebase_search" then
    match args.getField "query" with
    | some q => some (.codebaseSearch q (args.getField "path"))
    | none => none
  else if name = "fetch_instructions" then
    match args.getField "task" with
    | some t => some (.fetchInstructions t)
    | none => none
  else none

namespace NativeToolCallParser

/-- NativeToolCallParser.parseToolCall.  The decodedArguments parameter is
the outcome of JSON.parse on the arguments string: none models a decode
failure (the thrown SyntaxError is caught and yields null).  A top-level
null decodes successfully but Object.entries(null) throws inside the same
try block, also caught, also yielding null.  The function is total: no
exception escapes to the caller. -/
def parseToolCall (name : String) (decodedArguments : Option Json) :
    Option (ToolUse NativeToolArgs) :=
  if name ∈ toolNames then
    match decodedArguments with
    | none => none
    | some args =>
      match jsEntries args with
      | none => none
      | some entries =>
          some { name := name, params := buildParams name entries,
                 isPartial := false, nativeArgs := buildNativeArgs name args }
  else none

end NativeToolCallParser

/-- Observable outcome of one BaseTool.handle run: which callbacks and
methods were invoked and with what data.  Exceptions thrown by parseLegacy
are modelled by its Except result; handle itself is total, so no exception
escapes it. -/
structure HandleOutcome (P : Type) where
  calledHandlePartial : Bool
  calledParseLegacy : Bool
  errorReported : Option (String × String)
  errorPushed : Option String
  executedWith : Option P

namespace BaseTool

/-- BaseTool.handle: partial blocks go to handlePartial and return; complete
blocks resolve typed parameters from nativeArgs when present, else from
parseLegacy on the legacy string params; a parseLegacy failure is reported
through the handleError callback, pushed as a structured error result, and
suppresses execute. -/
def handle {P : Type} (name : String)
    (parseLegacy : List (String × String) → Except String P)
    (block : ToolUse P) : HandleOutcome P :=
  if block.isPartial then
    { calledHandlePartial := true, calledParseLegacy := false,
      errorReported := none, errorPushed := none, executedWith := none }
  else
    match block.nativeArgs with
    | some nativeArgs =>
        { calledHandlePartial := false, calledParseLegacy := false,
          errorReported := none, errorPushed := none, executedWith := some nativeArgs }
    | none =>
        match parseLegacy block.params with
        | .ok p =>
            { calledHandlePartial := false, calledParseLegacy := true,
              errorReported := none, errorPushed := none, executedWith := some p }
        | .error e =>
            let errorMessage := "Failed to parse " ++ name ++ " parameters: " ++ e
            { calledHandlePartial := false, calledParseLegacy := true,
              errorReported := some ("parsing " ++ name ++ " args", errorMessage),
              errorPushed := some ("<error>" ++ errorMessage ++ "</error>"),
              executedWith := none }

end BaseTool

/-- Typed execution parameters of ListFilesTool. -/
structure ListFilesParams where
  path : String
  recursive : Bool
deriving DecidableEq

namespace ListFilesTool

/-- ListFilesTool.parseLegacy: path defaults to the empty string via the
JavaScript or-else; recursive is true exactly when the recursive param
lower-cases to the string true.  The function is total: it never fails. -/
def parseLegacy (params : List (String × String)) : ListFilesParams :=
  { path := (getParam "path" params).getD "",
    recursive :=
      match getParam "recursive" params with
      | some s => s.toLower = "true"
      | none => false }

end ListFilesTool

/-- Typed execution parameters of AttemptCompletionTool. -/
structure AttemptCompletionParams where
  result : String
  command : Option String
deriving DecidableEq

namespace AttemptCompletionTool

/-- AttemptCompletionTool.parseLegacy: result defaults to the empty string
via the JavaScript or-else; command passes through possibly undefined.  The
function is total: it never fails. -/
def parseLegacy (params : List (String × String)) : AttemptCompletionParams :=
  { result := (getParam "result" params).getD "",
    command := getParam "command" params }

end AttemptCompletionTool

/-- Typed execution parameters of NewTaskTool. -/
structure NewTaskParams where
  mode : String
  message : String
  todos : Option String
deriving DecidableEq

namespace NewTaskTool

/-- NewTaskTool.parseLegacy: mode and message default to the empty string
via the JavaScript or-else; todos passes through possibly undefined.  The
function is total: it never fails. -/
def parseLegacy (params : List (String × String)) : NewTaskParams :=
  { mode := (getParam "mode" params).getD "",
    message := (getParam "message" params).getD "",
    todos := getParam "todos" params }

/-- The character-level transform of message.replace matching the global
regex for backslash-backslash-at and replacing each non-overlapping,
leftmost-first occurrence with backslash-at, continuing after the replaced
text, exactly as the JavaScript global replace does. -/
def unescapeAux : List Char → List Char
  | [] => []
  | [c] => [c]
  | [c, d] => [c, d]
  | c :: d :: e :: rest =>
      if c = '\\' ∧ d = '\\' ∧ e = '@' then '\\' :: '@' :: unescapeAux rest
      else c :: unescapeAux (d :: e :: rest)

/-- The un-escaping applied (once) to the new_task message before use. -/
def unescapeMessage (message : String) : String :=
  String.mk (unescapeAux message.data)

/-- Whether the character list contains an occurrence of
backslash-backslash-at, the pattern the un-escaping rewrites. -/
def hasDoubleEscape : List Char → Bool
  | c :: d :: e :: rest =>
      if c = '\\' ∧ d = '\\' ∧ e = '@' then true else hasDoubleEscape (d :: e :: rest)
  | _ => false

end NewTaskTool

/-- A key outside the Parameter Name set never survives legacy parameter
synthesis, whatever the tool. -/
theorem getParam_buildParams_of_not_mem (toolName key : String)
    (hkey : key ∉ toolParamNames) :
    ∀ entries, getParam key (buildParams toolName entries) = none := by
  intro entries
  induction entries with
  | nil => rfl
  | cons kv rest ih =>
    obtain ⟨k, v⟩ := kv
    unfold buildParams
    split
    · exact ih
    · split
      · rename_i hmem
        unfold getParam
        rw [if_neg (by intro hkeq; exact hkey (hkeq ▸ hmem))]
        exact ih
      · exact ih

/-- The files key is skipped outright during legacy parameter synthesis for
read_file. -/
theorem getParam_files_buildParams_read_file :
    ∀ entries, getParam "files" (buildParams "read_file" entries) = none := by
  intro entries
  induction entries with
  | nil => rfl
  | cons kv rest ih =>
    obtain ⟨k, v⟩ := kv
    unfold buildParams
    split
    · exact ih
    · rename_i hskip
      split
      · unfold getParam
        rw [if_neg (fun hk => hskip ⟨rfl, hk⟩)]
        exact ih
      · exact ih

/-- Every JSON value other than null has enumerable entries. -/
theorem jsEntries_isSome_of_ne_null (args : Json) (h : args ≠ Json.null) :
    ∃ entries, jsEntries args = some entries := by
  cases args with
  | null => exact absurd rfl h
  | bool b => exact ⟨_, rfl⟩
  | num n => exact ⟨_, rfl⟩
  | str s => exact ⟨_, rfl⟩
  | arr xs => exact ⟨_, rfl⟩
  | obj fields => exact ⟨_, rfl⟩

/-- For attempt_completion, native args are populated exactly when the
decoded result field is truthy. -/
theorem buildNativeArgs_attempt_isSome (j : Json) :
    (buildNativeArgs "attempt_completion" j).isSome = truthyOpt (j.getField "result") := by
  unfold buildNativeArgs
  rw [if_neg (by decide), if_pos rfl]
  cases hf : j.getField "result" with
  | none => simp [truthyOpt]
  | some r => by_cases ht : r.truthy <;> simp [truthyOpt, ht]

/-- For execute_command, native args are populated exactly when the decoded
command field is truthy. -/
theorem buildNativeArgs_command_isSome (j : Json) :
    (buildNativeArgs "execute_command" j).isSome = truthyOpt (j.getField "command") := by
  unfold buildNativeArgs
  rw [if_neg (by decide), if_neg (by decide), if_pos rfl]
  cases hf : j.getField "command" with
  | none => simp [truthyOpt]
  | some c => by_cases ht : c.truthy <;> simp [truthyOpt, ht]

/-- Characterization of which invocation the parser returns on a valid name
and enumerable arguments. -/
theorem parseToolCall_eq_some (name : String) (args : Json)
    (entries : List (String × Json)) (hname : name ∈ toolNames)
    (he : jsEntries args = some entries) :
    NativeToolCallParser.parseToolCall name (some args) =
      some { name := name, params := buildParams name entries,
             isPartial := false, nativeArgs := buildNativeArgs name args } := by
  simp only [NativeToolCallParser.parseToolCall]
  rw [if_pos hname, he]

/-- When enumerating the decoded arguments throws (JSON null), the parser
returns none whatever the name. -/
theorem parseToolCall_none_of_entries_none (name : String) (args : Json)
    (he : jsEntries args = none) :
    NativeToolCallParser.parseToolCall name (some args) = none := by
  simp only [NativeToolCallParser.parseToolCall]
  by_cases hname : name ∈ toolNames
  · rw [if_pos hname, he]
  · rw [if_neg hname]

/-- Claim C1: for every complete (non-partial) invocation handled by the
dispatch contract, if nativeArgs is present then execute receives nativeArgs
directly as its typed parameters and parseLegacy is never called; if
nativeArgs is absent, parseLegacy is called and whenever it succeeds its
value is exactly what execute receives. -/
theorem claim_C1 {P : Type} (name : String)
    (parseLegacy : List (String × String) → Except String P)
    (block : ToolUse P) (hc : block.isPartial = false) :
    (∀ na, block.nativeArgs = some na →
        (BaseTool.handle name parseLegacy block).executedWith = some na ∧
        (BaseTool.handle name parseLegacy block).calledParseLegacy = false) ∧
    (block.nativeArgs = none →
        (BaseTool.handle name parseLegacy block).calledParseLegacy = true ∧
        ∀ p, parseLegacy block.params = .ok p →
          (BaseTool.handle name parseLegacy block).executedWith = some p) := by
  constructor
  · intro na hna
    simp [BaseTool.handle, hc, hna]
  · intro hnone
    constructor
    · simp only [BaseTool.handle, hc, hnone]
      cases hp : parseLegacy block.params <;> simp
    · intro p hp
      simp [BaseTool.handle, hc, hnone, hp]

/-- Witness for claim C1 at a concrete native invocation. -/
theorem claim_C1_witness :
    (BaseTool.handle "attempt_completion"
        (fun ps => Except.ok (AttemptCompletionTool.parseLegacy ps))
        { name := "attempt_completion", params := [], isPartial := false,
          nativeArgs := some { result := "done", command := none } }).executedWith
       = some { result := "done", command := none } ∧
    (BaseTool.handle "attempt_completion"
        (fun ps => Except.ok (AttemptCompletionTool.parseLegacy ps))
        { name := "attempt_completion", params := [], isPartial := false,
          nativeArgs := some { result := "done", command := none } }).calledParseLegacy
       = false :=
  (claim_C1 "attempt_completion" _ _ rfl).1 _ rfl

/-- Claim C2: a partial invocation goes to handlePartial and returns at
once, with no legacy parsing, no execution and no error result; execute is
reachable only from a non-partial invocation. -/
theorem claim_C2 {P : Type} (name : String)
    (parseLegacy : List (String × String) → Except String P)
    (block : ToolUse P) :
    (block.isPartial = true →
      BaseTool.handle name parseLegacy block =
        { calledHandlePartial := true, calledParseLegacy := false,
          errorReported := none, errorPushed := none, executedWith := none }) ∧
    ((BaseTool.handle name parseLegacy block).executedWith.isSome = true →
      block.isPartial = false) := by
  constructor
  · intro h
    simp [BaseTool.handle, h]
  · intro h
    cases hb : block.isPartial with
    | false => rfl
    | true => simp [BaseTool.handle, hb] at h

/-- Witness for claim C2 at a concrete partial invocation. -/
theorem claim_C2_witness :
    BaseTool.handle "list_files" (fun ps => Except.ok (ListFilesTool.parseLegacy ps))
        { name := "list_files", params := [("path", "src")], isPartial := true,
          nativeArgs := none } =
      { calledHandlePartial := true, calledParseLegacy := false,
        errorReported := none, errorPushed := none, executedWith := none } :=
  (claim_C2 "list_files" _ _).1 rfl

/-- Claim C3: when parseLegacy fails on a complete invocation without native
args, handle reports through the error callback, pushes a structured error
result, and never reaches execute; handle itself is a total function, so the
failure does not propagate. -/
theorem claim_C3 {P : Type} (name : String)
    (parseLegacy : List (String × String) → Except String P)
    (block : ToolUse P) (e : String)
    (hc : block.isPartial = false) (hn : block.nativeArgs = none)
    (he : parseLegacy block.params = .error e) :
    (BaseTool.handle name parseLegacy block).errorReported =
        some ("parsing " ++ name ++ " args",
          "Failed to parse " ++ name ++ " parameters: " ++ e) ∧
    (BaseTool.handle name parseLegacy block).errorPushed =
        some ("<error>" ++ ("Failed to parse " ++ name ++ " parameters: " ++ e) ++ "</error>") ∧
    (BaseTool.handle name parseLegacy block).executedWith = none := by
  simp [BaseTool.handle, hc, hn, he]

/-- Witness for claim C3 at a concrete failing legacy parse. -/
theorem claim_C3_witness :
    (BaseTool.handle "new_task" (fun _ => Except.error "boom")
        { name := "new_task", params := [], isPartial := false,
          nativeArgs := (none : Option NewTaskParams) }).errorPushed
      = some "<error>Failed to parse new_task parameters: boom</error>" :=
  (claim_C3 "new_task" (fun _ => Except.error "boom")
    { name := "new_task", params := [], isPartial := false,
      nativeArgs := (none : Option NewTaskParams) } "boom" rfl rfl rfl).2.1

/-- Claim C4 (amended): parseToolCall is a total function (no exception
reaches its caller); it returns none whenever the name is outside the closed
tool-name set or the arguments string does not decode as JSON; and for every
valid tool name whose arguments decode to any JSON value other than null it
returns a non-null invocation whose partial flag is false.  (A top-level
JSON null is well-formed JSON yet also yields none, because enumerating the
entries of null throws an error that the parser catches.) -/
theorem claim_C4 :
    (∀ name d, name ∉ toolNames → NativeToolCallParser.parseToolCall name d = none) ∧
    (∀ name, NativeToolCallParser.parseToolCall name none = none) ∧
    (∀ name args, name ∈ toolNames → args ≠ Json.null →
      ∃ inv, NativeToolCallParser.parseToolCall name (some args) = some inv ∧
        inv.isPartial = false) := by
  refine ⟨?_, ?_, ?_⟩
  · intro name d h
    simp [NativeToolCallParser.parseToolCall, h]
  · intro name
    by_cases h : name ∈ toolNames <;> simp [NativeToolCallParser.parseToolCall, h]
  · intro name args hname hnull
    obtain ⟨entries, he⟩ := jsEntries_isSome_of_ne_null args hnull
    exact ⟨_, parseToolCall_eq_some name args entries hname he, rfl⟩

/-- Witness for claim C4 at concrete inputs: an unlisted name is rejected, a
decode failure is rejected, and a valid call yields a complete invocation. -/
theorem claim_C4_witness :
    NativeToolCallParser.parseToolCall "definitely_not_a_tool" (some (Json.obj [])) = none ∧
    NativeToolCallParser.parseToolCall "execute_command" none = none ∧
    ∃ inv, NativeToolCallParser.parseToolCall "execute_command"
        (some (Json.obj [("command", Json.str "ls")])) = some inv ∧
      inv.isPartial = false :=
  ⟨claim_C4.1 "definitely_not_a_tool" _ (by decide), claim_C4.2.1 "execute_command",
   claim_C4.2.2 "execute_command" _ (by decide) (fun h => Json.noConfusion h)⟩

/-- Counterexample to claim C4 as stated: the arguments string null is
well-formed JSON and read_file is a valid tool name, yet the parser returns
no invocation. -/
theorem claim_C4_counterexample :
    "read_file" ∈ toolNames ∧
    NativeToolCallParser.parseToolCall "read_file" (some Json.null) = none :=
  ⟨by decide, rfl⟩

/-- Claim C5: for read_file, the single-file arguments with path a.txt yield
nativeArgs equal to the synthesized one-entry list with an empty lineRanges
selector, and the multi-file arguments yield the decoded entry list itself,
without the single-entry wrapping. -/
theorem claim_C5 :
    (∃ inv, NativeToolCallParser.parseToolCall "read_file"
        (some (.obj [("path", .str "a.txt")])) = some inv ∧
      inv.nativeArgs =
        some (.readFile (.arr [.obj [("path", .str "a.txt"), ("lineRanges", .arr [])]]))) ∧
    (∃ inv, NativeToolCallParser.parseToolCall "read_file"
        (some (.obj [("files",
          .arr [.obj [("path", .str "a.txt"), ("line_ranges", .arr [.arr [.num 1, .num 5]])]])]))
        = some inv ∧
      inv.nativeArgs =
        some (.readFile
          (.arr [.obj [("path", .str "a.txt"), ("line_ranges", .arr [.arr [.num 1, .num 5]])]]))) :=
  ⟨⟨_, rfl, rfl⟩, ⟨_, rfl, rfl⟩⟩

/-- Claim C6: every invocation the parser produces for read_file carries no
files key in its synthesized legacy parameters, whatever the decoded
arguments were. -/
theorem claim_C6 (decodedArguments : Option Json) (inv : ToolUse NativeToolArgs)
    (h : NativeToolCallParser.parseToolCall "read_file" decodedArguments = some inv) :
    getParam "files" inv.params = none := by
  cases decodedArguments with
  | none => simp [NativeToolCallParser.parseToolCall] at h
  | some args =>
    cases hje : jsEntries args with
    | none =>
      rw [parseToolCall_none_of_entries_none "read_file" args hje] at h
      exact absurd h (by simp)
    | some entries =>
      rw [parseToolCall_eq_some "read_file" args entries (by decide) hje] at h
      obtain rfl := Option.some.inj h
      exact getParam_files_buildParams_read_file entries

/-- Witness for claim C6 at the concrete multi-file call. -/
theorem claim_C6_witness :
    getParam "files"
      ({ name := "read_file", params := [], isPartial := false,
         nativeArgs := some (.readFile
           (.arr [.obj [("path", .str "a.txt"),
             ("line_ranges", .arr [.arr [.num 1, .num 5]])]])) } :
        ToolUse NativeToolArgs).params = none :=
  claim_C6 (some (.obj [("files",
      .arr [.obj [("path", .str "a.txt"), ("line_ranges", .arr [.arr [.num 1, .num 5]])]])]))
    _ rfl

/-- Claim C7: for every decoded arguments object, a key outside the closed
Parameter Name set never appears in the synthesized legacy parameters, and
its presence never causes the call to be rejected: a valid tool name still
yields an invocation. -/
theorem claim_C7 (name : String) (fields : List (String × Json)) :
    (∀ inv, NativeToolCallParser.parseToolCall name (some (.obj fields)) = some inv →
      ∀ key, key ∉ toolParamNames → getParam key inv.params = none) ∧
    (name ∈ toolNames →
      ∃ inv, NativeToolCallParser.parseToolCall name (some (.obj fields)) = some inv) := by
  constructor
  · intro inv h key hkey
    by_cases hname : name ∈ toolNames
    · rw [parseToolCall_eq_some name (.obj fields) fields hname rfl] at h
      obtain rfl := Option.some.inj h
      exact getParam_buildParams_of_not_mem name key hkey fields
    · simp [NativeToolCallParser.parseToolCall, hname] at h
  · intro hname
    exact ⟨_, parseToolCall_eq_some name (.obj fields) fields hname rfl⟩

/-- Witness for claim C7 at a concrete call carrying an unknown key. -/
theorem claim_C7_witness :
    getParam "bogus"
      ({ name := "execute_command", params := [("command", "ls")], isPartial := false,
         nativeArgs := some (.executeCommand (.str "ls") none) } :
        ToolUse NativeToolArgs).params = none ∧
    ∃ inv, NativeToolCallParser.parseToolCall "execute_command"
        (some (.obj [("command", .str "ls"), ("bogus", .str "x")])) = some inv :=
  ⟨(claim_C7 "execute_command" [("command", .str "ls"), ("bogus", .str "x")]).1
      _ rfl "bogus" (by decide),
   (claim_C7 "execute_command" [("command", .str "ls"), ("bogus", .str "x")]).2 (by decide)⟩

/-- The un-escaping pass leaves a character list without the double-escape
pattern unchanged. -/
theorem unescapeAux_eq_self :
    ∀ cs, NewTaskTool.hasDoubleEscape cs = false → NewTaskTool.unescapeAux cs = cs := by
  intro cs
  induction cs using NewTaskTool.unescapeAux.induct with
  | case1 => intro _; rfl
  | case2 c => intro _; rfl
  | case3 c d => intro _; rfl
  | case4 c d e rest hcond ih =>
    intro h
    rw [NewTaskTool.hasDoubleEscape, if_pos hcond] at h
    exact absurd h (by simp)
  | case5 c d e rest hcond ih =>
    intro h
    rw [NewTaskTool.hasDoubleEscape, if_neg hcond] at h
    rw [NewTaskTool.unescapeAux, if_neg hcond, ih h]

/-- Claim C8 (amended): the un-escaping transform is applied exactly once to
the new_task message; a message containing no occurrence of the
double-escape pattern backslash-backslash-at — in particular one containing
only the already-single-escaped backslash-at — is left unchanged.  Full
idempotence fails: with three or more consecutive backslashes before an at
sign, a second application un-escapes again. -/
theorem claim_C8 (message : String)
    (h : NewTaskTool.hasDoubleEscape message.data = false) :
    NewTaskTool.unescapeMessage message = message := by
  unfold NewTaskTool.unescapeMessage
  rw [unescapeAux_eq_self message.data h]

/-- Witness for claim C8: a message holding only the single-escaped sequence
is a fixed point of the transform. -/
theorem claim_C8_witness :
    NewTaskTool.hasDoubleEscape "see \\@file".data = false ∧
    NewTaskTool.unescapeMessage "see \\@file" = "see \\@file" :=
  ⟨by decide, claim_C8 "see \\@file" (by decide)⟩

/-- Counterexample to claim C8 as stated: on a message of three backslashes
followed by an at sign, the transform output still contains a double escape,
so applying the transform to its own output changes the string again — the
transform is not idempotent. -/
theorem claim_C8_counterexample :
    NewTaskTool.unescapeMessage (NewTaskTool.unescapeMessage "\\\\\\@") ≠
      NewTaskTool.unescapeMessage "\\\\\\@" := by decide

/-- Claim C9 (amended): the cited concrete parseLegacy implementations never
fail; a missing path, result, mode or message parameter is silently
defaulted to the empty string rather than raising a reportable error. -/
theorem claim_C9 (ps : List (String × String))
    (hpath : getParam "path" ps = none) (hres : getParam "result" ps = none)
    (hmode : getParam "mode" ps = none) (hmsg : getParam "message" ps = none) :
    (ListFilesTool.parseLegacy ps).path = "" ∧
    (AttemptCompletionTool.parseLegacy ps).result = "" ∧
    (NewTaskTool.parseLegacy ps).mode = "" ∧
    (NewTaskTool.parseLegacy ps).message = "" := by
  simp [ListFilesTool.parseLegacy, AttemptCompletionTool.parseLegacy,
        NewTaskTool.parseLegacy, hpath, hres, hmode, hmsg]

/-- Witness for claim C9 at a concrete malformed parameter map. -/
theorem claim_C9_witness :
    (ListFilesTool.parseLegacy [("recursive", "TRUE")]).path = "" ∧
    (AttemptCompletionTool.parseLegacy [("recursive", "TRUE")]).result = "" ∧
    (NewTaskTool.parseLegacy [("recursive", "TRUE")]).mode = "" ∧
    (NewTaskTool.parseLegacy [("recursive", "TRUE")]).message = "" :=
  claim_C9 [("recursive", "TRUE")] rfl rfl rfl rfl

/-- Counterexample to claim C9 as stated: on a parameter map missing every
required parameter, each cited parseLegacy succeeds and returns typed
parameters built from defaulted data instead of failing. -/
theorem claim_C9_counterexample :
    ListFilesTool.parseLegacy [] = { path := "", recursive := false } ∧
    AttemptCompletionTool.parseLegacy [] = { result := "", command := none } ∧
    NewTaskTool.parseLegacy [] = { mode := "", message := "", todos := none } :=
  ⟨rfl, rfl, rfl⟩

/-- Claim C10: for attempt_completion and execute_command the parser
populates nativeArgs exactly when the required field is truthy; an arguments
object whose required key maps to the empty string yields an invocation with
nativeArgs absent, and the dispatcher then falls back to parseLegacy on
every complete invocation without native args. -/
theorem claim_C10 :
    (∀ j inv, NativeToolCallParser.parseToolCall "attempt_completion" (some j) = some inv →
      inv.nativeArgs.isSome = truthyOpt (j.getField "result")) ∧
    (∀ j inv, NativeToolCallParser.parseToolCall "execute_command" (some j) = some inv →
      inv.nativeArgs.isSome = truthyOpt (j.getField "command")) ∧
    (∃ inv, NativeToolCallParser.parseToolCall "attempt_completion"
        (some (.obj [("result", .str "")])) = some inv ∧ inv.nativeArgs = none) ∧
    (∃ inv, NativeToolCallParser.parseToolCall "execute_command"
        (some (.obj [("command", .str "")])) = some inv ∧ inv.nativeArgs = none) ∧
    (∀ (P : Type) (name : String) (pl : List (String × String) → Except String P)
        (block : ToolUse P), block.isPartial = false → block.nativeArgs = none →
      (BaseTool.handle name pl block).calledParseLegacy = true) := by
  refine ⟨?_, ?_, ⟨_, rfl, rfl⟩, ⟨_, rfl, rfl⟩, ?_⟩
  · intro j inv h
    cases hje : jsEntries j with
    | none =>
      rw [parseToolCall_none_of_entries_none "attempt_completion" j hje] at h
      exact absurd h (by simp)
    | some entries =>
      rw [parseToolCall_eq_some "attempt_completion" j entries (by decide) hje] at h
      obtain rfl := Option.some.inj h
      exact buildNativeArgs_attempt_isSome j
  · intro j inv h
    cases hje : jsEntries j with
    | none =>
      rw [parseToolCall_none_of_entries_none "execute_command" j hje] at h
      exact absurd h (by simp)
    | some entries =>
      rw [parseToolCall_eq_some "execute_command" j entries (by decide) hje] at h
      obtain rfl := Option.some.inj h
      exact buildNativeArgs_command_isSome j
  · intro P name pl block hc hn
    simp [BaseTool.handle, hc, hn]
    cases hp : pl block.params <;> simp

/-- Witness for claim C10: a truthy result populates nativeArgs, and the
dispatcher calls parseLegacy on a concrete complete invocation lacking
native args. -/
theorem claim_C10_witness :
    ({ name := "attempt_completion", params := [("result", "ok")], isPartial := false,
       nativeArgs := some (.attemptCompletion (.str "ok")) } :
        ToolUse NativeToolArgs).nativeArgs.isSome
      = truthyOpt (Json.getField (.obj [("result", .str "ok")]) "result") ∧
    (BaseTool.handle "attempt_completion"
        (fun ps => Except.ok (AttemptCompletionTool.parseLegacy ps))
        { name := "attempt_completion", params := [("result", "")], isPartial := false,
          nativeArgs := none }).calledParseLegacy = true :=
  ⟨claim_C10.1 (.obj [("result", .str "ok")]) _ rfl,
   claim_C10.2.2.2.2 AttemptCompletionParams "attempt_completion"
     (fun ps => Except.ok (AttemptCompletionTool.parseLegacy ps))
     { name := "attempt_completion", params := [("result", "")], isPartial := false,
       nativeArgs := none } rfl rfl⟩

end RooCode
